import Mathlib

/-
Verification of the pyback remote-command relay (ci/pyback/server.py and
ci/pyback/client.py).

The two Python files implement a line-oriented relay: the client sends one
JSON request {"cmd", "working_dir", "env"} over a websocket; the server
launches the command with subprocess.Popen(cmd, shell=True,
stdout=PIPE, stderr=STDOUT, cwd=working_dir, env=env) and loops:
poll the child; if it has exited, send {"exit": returncode} and return;
otherwise readline from the merged output pipe and send
{"line": line.decode(errors="replace")}.  The client loops on recv:
a truthy "line" field is transliterated to ASCII with unidecode and
printed; an "exit" field of 0 ends the loop normally, a non-zero one
raises ProcessFailed(rc); any other message is ignored and the loop
continues.

The embedding below models:
  - JSON messages as records of optional fields (json.loads of the
    json.dumps the peer produced; absent key and null collapse to none,
    which is exactly what dict.get exposes to the Python code);
  - the child process abstractly as the list of byte chunks that
    successive readline() calls would return, plus its exit status;
  - the scheduling nondeterminism of the server loop by a parameter j:
    the number of loop iterations performed before poll() first observes
    that the child has exited (the child may exit at any real time, so
    every j is a realizable schedule);
  - bytes.decode with errors="strict"/"replace" as an incremental UTF-8
    decoder over List Nat, with the CPython/WHATWG maximal-subpart
    replacement behavior;
  - subprocess.Popen's documented cwd semantics: a working directory
    that does not exist makes Popen raise FileNotFoundError in the
    calling process (modelled as LaunchResult.raised, i.e. the exception
    propagates and no message is sent);
  - the external unidecode library by a character-wise transliteration
    table that is the identity on ASCII and maps non-ASCII characters to
    ASCII replacement sequences.
-/

namespace Pyback

/-- One JSON message on the wire, as seen through dict.get: the "line"
field and the "exit" field, each possibly absent. -/
structure JsonMsg where
  line : Option String
  exit : Option Int
deriving DecidableEq, Repr

/-- The server's output message json.dumps({"line": s}). -/
def lineMsg (s : String) : JsonMsg := ⟨some s, none⟩

/-- The server's final message json.dumps({"exit": rc}). -/
def exitMsg (rc : Int) : JsonMsg := ⟨none, some rc⟩

/-- State of the incremental UTF-8 decoder in the middle of a multi-byte
sequence: accumulated scalar bits, continuation bytes still needed, and
the allowed range for the next byte. -/
structure MState where
  acc : Nat
  needed : Nat
  lo : Nat
  hi : Nat
deriving DecidableEq, Repr

/-- Classification of a byte in lead position, per the UTF-8 table used
by CPython's decoder: ASCII, the start of a multi-byte sequence (with
the restricted range for the first continuation byte), or invalid. -/
inductive StartResult where
  | ascii (c : Char)
  | multi (acc needed lo hi : Nat)
  | invalid
deriving DecidableEq, Repr

def startByte (b : Nat) : StartResult :=
  if b < 0x80 then .ascii (Char.ofNat b)
  else if b < 0xC2 then .invalid
  else if b ≤ 0xDF then .multi (b - 0xC0) 1 0x80 0xBF
  else if b = 0xE0 then .multi 0 2 0xA0 0xBF
  else if b ≤ 0xEC then .multi (b - 0xE0) 2 0x80 0xBF
  else if b = 0xED then .multi 13 2 0x80 0x9F
  else if b ≤ 0xEF then .multi (b - 0xE0) 2 0x80 0xBF
  else if b = 0xF0 then .multi 0 3 0x90 0xBF
  else if b ≤ 0xF3 then .multi (b - 0xF0) 3 0x80 0xBF
  else if b = 0xF4 then .multi 4 3 0x80 0x8F
  else .invalid

/-- U+FFFD, the replacement character substituted by errors="replace". -/
def replacementChar : Char := Char.ofNat 0xFFFD

/-- Python bytes.decode modelled as an incremental UTF-8 decoder.
`rep = true` is errors="replace" (each maximal invalid subpart becomes
one U+FFFD and decoding continues); `rep = false` is errors="strict"
(`none` models the UnicodeDecodeError being raised). -/
def utf8Fold (rep : Bool) : Option MState → List Nat → Option (List Char)
  | none, [] => some []
  | some _, [] => if rep then some [replacementChar] else none
  | none, b :: bs =>
    match startByte b with
    | .ascii c => (utf8Fold rep none bs).map (fun l => c :: l)
    | .multi acc needed lo hi => utf8Fold rep (some ⟨acc, needed, lo, hi⟩) bs
    | .invalid =>
      if rep then (utf8Fold rep none bs).map (fun l => replacementChar :: l)
      else none
  | some st, b :: bs =>
    if st.lo ≤ b ∧ b ≤ st.hi then
      if st.needed = 1 then
        (utf8Fold rep none bs).map (fun l => Char.ofNat (st.acc * 64 + (b - 0x80)) :: l)
      else
        utf8Fold rep (some ⟨st.acc * 64 + (b - 0x80), st.needed - 1, 0x80, 0xBF⟩) bs
    else
      if rep then
        match startByte b with
        | .ascii c => (utf8Fold rep none bs).map (fun l => replacementChar :: c :: l)
        | .multi acc needed lo hi =>
          (utf8Fold rep (some ⟨acc, needed, lo, hi⟩) bs).map (fun l => replacementChar :: l)
        | .invalid =>
          (utf8Fold rep none bs).map (fun l => replacementChar :: replacementChar :: l)
      else none

/-- `line.decode(errors="replace")` as called in the server loop: total
because replace-mode decoding never fails (proved below). -/
def decodeReplace (bs : List Nat) : String :=
  ⟨(utf8Fold true none bs).getD []⟩

/-- The server's streaming loop from run_cmd, over the abstract child.
`chunks` are the byte strings successive readline() calls would return;
`returncode` is the child's exit status; `j` is the schedule parameter:
the number of iterations before poll() first observes the exit.
When poll observes the exit the loop sends {"exit": rc} and returns at
once — any chunks not yet read are never sent.  When the chunks are
exhausted before the exit is observed, readline blocks until the child
exits and then returns b"" (end of file), which is sent as the empty
line, after which poll reports the exit. -/
def serverLoop : List (List Nat) → Int → Nat → List JsonMsg
  | _, rc, 0 => [exitMsg rc]
  | [], rc, _ + 1 => [lineMsg (decodeReplace []), exitMsg rc]
  | bs :: rest, rc, j + 1 => lineMsg (decodeReplace bs) :: serverLoop rest rc j

/-- The argument record of the subprocess.Popen call made by run_cmd. -/
structure PopenCall where
  args : String
  shell : Bool
  stdoutPipe : Bool
  stderrToStdout : Bool
  cwd : String
  env : Option (List (String × String))
deriving DecidableEq, Repr

/-- The Popen call run_cmd builds from a request: shell=True,
stdout=PIPE, stderr=STDOUT, cwd=working_dir, env=env. -/
def popenCallOf (cmd : String) (working_dir : String)
    (env : List (String × String)) : PopenCall :=
  ⟨cmd, true, true, true, working_dir, some env⟩

/-- Popen's documented environment semantics: when env is not None it
defines the child's environment outright, replacing (not merging with)
the parent's; when env is None the parent environment is inherited. -/
def popenChildEnv (parentEnv : List (String × String)) (call : PopenCall) :
    List (String × String) :=
  match call.env with
  | some e => e
  | none => parentEnv

/-- Abstract behavior of the child process the command would denote:
the byte chunks its merged output yields to successive readline calls,
and its exit status. -/
structure ChildBehavior where
  chunks : List (List Nat)
  returncode : Int
deriving DecidableEq, Repr

/-- Outcome of the Popen call itself: either a started child, or an
exception (FileNotFoundError and friends) raised in the server process. -/
inductive LaunchResult where
  | started (child : ChildBehavior)
  | raised
deriving DecidableEq, Repr

/-- Popen's documented cwd semantics: if the working directory does not
name an existing directory, process creation raises in the calling
process; otherwise the child is started. -/
def popen (existingDirs : List String) (call : PopenCall)
    (child : ChildBehavior) : LaunchResult :=
  if call.cwd ∈ existingDirs then .started child else .raised

/-- run_cmd end to end: the messages it sends on the websocket, or
`none` when Popen raised, in which case the exception propagates out of
run_cmd and nothing is sent for this request. -/
def runCmdMessages (existingDirs : List String) (call : PopenCall)
    (child : ChildBehavior) (j : Nat) : Option (List JsonMsg) :=
  match popen existingDirs call child with
  | .started c => some (serverLoop c.chunks c.returncode j)
  | .raised => none

/-- The request message as the server's on_message reads it: the three
keys "cmd", "working_dir" and "env", each possibly absent. -/
structure ReqMsg where
  cmd : Option String
  working_dir : Option String
  env : Option (List (String × String))
deriving DecidableEq, Repr

/-- The server's on_message: it subscripts message["working_dir"],
message["env"] and message["cmd"] — a missing key raises KeyError
(`none`); present values are passed through uninterpreted to the Popen
call, with no check on their contents. -/
def server_on_message (m : ReqMsg) : Option PopenCall :=
  match m.working_dir, m.env, m.cmd with
  | some wd, some e, some c => some (popenCallOf c wd e)
  | _, _, _ => none

/-- socket_handler iterates over every message received on the
connection (async for) and executes each in turn; the result is the
list of Popen calls made.  A KeyError from on_message propagates and
ends the handler, so later messages of that connection are dropped. -/
def socket_handler : List ReqMsg → List PopenCall
  | [] => []
  | m :: rest =>
    match server_on_message m with
    | some call => call :: socket_handler rest
    | none => []

/-- The request the client's client_loop builds and sends. -/
def client_request (cmd working_dir : String)
    (env : List (String × String)) : ReqMsg :=
  ⟨some cmd, some working_dir, some env⟩

/-- Everything client_loop ever sends on the connection: the single
request, sent once before the receive loop; the loop itself only
receives. -/
def client_sent_messages (cmd working_dir : String)
    (env : List (String × String)) : List ReqMsg :=
  [client_request cmd working_dir env]

/-- Model of the external unidecode library used by sanitize_line:
a character-wise transliteration that is the identity on ASCII and maps
each non-ASCII character to a (possibly empty) sequence of ASCII
characters; a few representative table entries are given, everything
else transliterates to the empty sequence as unidecode does for
unmapped code points. -/
def unidecodeChars (c : Char) : List Char :=
  if c.toNat < 128 then [c]
  else if c = 'é' then ['e']
  else if c = 'è' then ['e']
  else if c = 'à' then ['a']
  else if c = 'ü' then ['u']
  else if c = '…' then ['.', '.', '.']
  else []

/-- unidecode.unidecode over a whole string. -/
def unidecode (s : String) : String :=
  ⟨s.data.flatMap unidecodeChars⟩

/-- The client's sanitize_line: transliterate to ASCII via unidecode. -/
def sanitize_line (line : String) : String :=
  unidecode line

/-- Python truthiness of message.get("line"): None and the empty string
are falsy, every other string is truthy. -/
def truthyStr : Option String → Bool
  | none => false
  | some s => !s.isEmpty

/-- What one call of the client's on_message does: print a sanitized
line and return False (keep looping), fall through returning None (keep
looping, nothing printed), return True (stop, success), or raise
ProcessFailed rc. -/
inductive OnMessageResult where
  | printedLine (s : String)
  | noAction
  | stop
  | processFailed (rc : Int)
deriving DecidableEq, Repr

/-- The rc = message.get("exit") half of the client's on_message,
reached when the "line" field was falsy. -/
def exitCheck (m : JsonMsg) : OnMessageResult :=
  match m.exit with
  | some rc => if rc = 0 then .stop else .processFailed rc
  | none => .noAction

/-- The client's on_message: if message.get("line") is truthy, sanitize
and print it and return False; otherwise inspect message.get("exit"). -/
def on_message (m : JsonMsg) : OnMessageResult :=
  match m.line with
  | some l => if l.isEmpty then exitCheck m else .printedLine (sanitize_line l)
  | none => exitCheck m

/-- Outcome of the client's receive loop, carrying the child-output
lines printed to local stdout in order.  `blocked` models the loop
still waiting in recv after the modelled message trace is exhausted. -/
inductive ClientResult where
  | success (printed : List String)
  | failed (rc : Int) (printed : List String)
  | blocked (printed : List String)
deriving DecidableEq, Repr

/-- Prepend one printed line to a loop outcome. -/
def consPrinted (s : String) : ClientResult → ClientResult
  | .success ps => .success (s :: ps)
  | .failed rc ps => .failed rc (s :: ps)
  | .blocked ps => .blocked (s :: ps)

/-- The client's receive loop over the incoming message trace:
recv, dispatch through on_message, stop when it returns True, propagate
ProcessFailed, keep looping on a falsy result. -/
def client_recv_loop : List JsonMsg → ClientResult
  | [] => .blocked []
  | m :: rest =>
    match on_message m with
    | .printedLine s => consPrinted s (client_recv_loop rest)
    | .noAction => client_recv_loop rest
    | .stop => .success []
    | .processFailed rc => .failed rc []

/-- The lines carried by the output events of a message trace, in send
order. -/
def linesOf (msgs : List JsonMsg) : List String :=
  msgs.filterMap (fun m => m.line)

/-- The lines the client printed, in print order. -/
def printedOf : ClientResult → List String
  | .success ps => ps
  | .failed _ ps => ps
  | .blocked ps => ps

/-- Whether the client loop is still blocked in recv at the end of the
modelled trace. -/
def isBlockedResult : ClientResult → Bool
  | .blocked _ => true
  | _ => false

/-- The client outcome a given exit code demands: exit 0 returns
normally, a non-zero code raises ProcessFailed carrying exactly that
code, and the loop never ends up blocked. -/
def matchesExit (r : ClientResult) (code : Int) : Prop :=
  match r with
  | .success _ => code = 0
  | .failed rc _ => rc = code ∧ code ≠ 0
  | .blocked _ => False

/-- A string is ASCII-only when every character is below 128. -/
def asciiOnly (s : String) : Bool :=
  s.data.all (fun c => decide (c.toNat < 128))

theorem isSome_map_list (f : List Char → List Char) (o : Option (List Char)) :
    (o.map f).isSome = o.isSome := by
  cases o <;> rfl

/-- Replace-mode decoding never fails, whatever decoder state it starts in. -/
theorem utf8Fold_replace_isSome (bs : List Nat) :
    ∀ st, (utf8Fold true st bs).isSome = true := by
  induction bs with
  | nil => intro st; cases st <;> simp [utf8Fold]
  | cons b bs ih =>
    intro st
    cases st with
    | none =>
      simp only [utf8Fold]
      cases startByte b <;> simp [isSome_map_list, ih]
    | some st =>
      simp only [utf8Fold]
      split
      · split <;> simp [isSome_map_list, ih]
      · rw [if_pos trivial]
        cases startByte b <;> simp [isSome_map_list, ih]

/-- When strict decoding would raise, the replace-mode result contains at
least one replacement character. -/
theorem utf8Fold_strict_mem (bs : List Nat) :
    ∀ st l, utf8Fold false st bs = none → utf8Fold true st bs = some l →
      replacementChar ∈ l := by
  induction bs with
  | nil =>
    intro st l h hl
    cases st with
    | none => simp [utf8Fold] at h
    | some st =>
      simp [utf8Fold] at hl
      simp [← hl]
  | cons b bs ih =>
    intro st l h hl
    cases st with
    | none =>
      simp only [utf8Fold] at h hl
      cases hs : startByte b with
      | ascii c =>
        rw [hs] at h hl
        rw [Option.map_eq_none'] at h
        obtain ⟨l0, hl0, rfl⟩ := Option.map_eq_some'.mp hl
        exact List.mem_cons_of_mem _ (ih none l0 h hl0)
      | multi acc needed lo hi =>
        rw [hs] at h hl
        exact ih _ _ h hl
      | invalid =>
        rw [hs] at hl
        obtain ⟨l0, hl0, rfl⟩ := Option.map_eq_some'.mp (by simpa using hl)
        exact List.mem_cons_self _ _
    | some st =>
      simp only [utf8Fold] at h hl
      by_cases hr : st.lo ≤ b ∧ b ≤ st.hi
      · rw [if_pos hr] at h hl
        by_cases h1 : st.needed = 1
        · rw [if_pos h1] at h hl
          rw [Option.map_eq_none'] at h
          obtain ⟨l0, hl0, rfl⟩ := Option.map_eq_some'.mp hl
          exact List.mem_cons_of_mem _ (ih none l0 h hl0)
        · rw [if_neg h1] at h hl
          exact ih _ _ h hl
      · rw [if_neg hr] at h hl
        rw [if_pos trivial] at hl
        cases hs : startByte b with
        | ascii c =>
          rw [hs] at hl
          obtain ⟨l0, hl0, rfl⟩ := Option.map_eq_some'.mp hl
          exact List.mem_cons_self _ _
        | multi acc needed lo hi =>
          rw [hs] at hl
          obtain ⟨l0, hl0, rfl⟩ := Option.map_eq_some'.mp hl
          exact List.mem_cons_self _ _
        | invalid =>
          rw [hs] at hl
          obtain ⟨l0, hl0, rfl⟩ := Option.map_eq_some'.mp hl
          exact List.mem_cons_self _ _

theorem consPrinted_printedOf (s : String) (r : ClientResult) :
    printedOf (consPrinted s r) = s :: printedOf r := by
  cases r <;> rfl

theorem matchesExit_consPrinted (s : String) (r : ClientResult) (code : Int) :
    matchesExit (consPrinted s r) code ↔ matchesExit r code := by
  cases r <;> exact Iff.rfl

theorem isBlockedResult_consPrinted (s : String) (r : ClientResult) :
    isBlockedResult (consPrinted s r) = isBlockedResult r := by
  cases r <;> rfl

/-- Unfolding lemma: with schedule 0 the loop sends only the exit. -/
theorem serverLoop_zero (chunks : List (List Nat)) (code : Int) :
    serverLoop chunks code 0 = [exitMsg code] := by
  cases chunks <;> rfl

/-- The client outcome on the lone exit message is as the exit code
demands. -/
theorem client_exit_only (code : Int) :
    matchesExit (client_recv_loop [exitMsg code]) code := by
  by_cases h : code = 0 <;>
    simp [client_recv_loop, on_message, exitMsg, exitCheck, matchesExit, h]

/-- Main transport lemma: feeding any server trace into the client loop
yields the outcome the child's exit code demands, under every schedule. -/
theorem clientServer_matchesExit (chunks : List (List Nat)) (code : Int)
    (j : Nat) : matchesExit (client_recv_loop (serverLoop chunks code j)) code := by
  induction j generalizing chunks with
  | zero => rw [serverLoop_zero]; exact client_exit_only code
  | succ j ih =>
    cases chunks with
    | nil =>
      have h1 : on_message (lineMsg (decodeReplace [])) = OnMessageResult.noAction := rfl
      show matchesExit (client_recv_loop [lineMsg (decodeReplace []), exitMsg code]) code
      simp only [client_recv_loop, h1]
      exact client_exit_only code
    | cons c rest =>
      show matchesExit
        (client_recv_loop (lineMsg (decodeReplace c) :: serverLoop rest code j)) code
      by_cases h : (decodeReplace c).isEmpty
      · simp only [client_recv_loop, on_message, lineMsg, exitCheck, h, if_pos]
        exact ih rest
      · simp only [client_recv_loop, on_message, lineMsg, h]
        rw [if_neg (by simp [h])]
        exact (matchesExit_consPrinted _ _ _).mpr (ih rest)

theorem serverLoop_ne_nil (chunks : List (List Nat)) (code : Int) (j : Nat) :
    serverLoop chunks code j ≠ [] := by
  cases j <;> cases chunks <;> simp [serverLoop]

/-- The exit message is always the last message of the server trace. -/
theorem serverLoop_getLast (chunks : List (List Nat)) (code : Int) (j : Nat) :
    (serverLoop chunks code j).getLast? = some (exitMsg code) := by
  induction j generalizing chunks with
  | zero => rw [serverLoop_zero]; rfl
  | succ j ih =>
    cases chunks with
    | nil => rfl
    | cons c rest =>
      have h := serverLoop_ne_nil rest code j
      cases hx : serverLoop rest code j with
      | nil => exact absurd hx h
      | cons m t =>
        show (lineMsg (decodeReplace c) :: serverLoop rest code j).getLast? = _
        rw [hx, List.getLast?_cons_cons, ← hx]
        exact ih rest

theorem matchesExit_not_blocked {r : ClientResult} {code : Int}
    (h : matchesExit r code) : isBlockedResult r = false := by
  cases r with
  | success ps => rfl
  | failed rc ps => rfl
  | blocked ps => exact h.elim

theorem matchesExit_failed {r : ClientResult} {code : Int}
    (h : matchesExit r code) (hc : code ≠ 0) :
    ∃ ps, r = ClientResult.failed code ps := by
  cases r with
  | success ps => exact absurd h hc
  | failed rc ps => exact ⟨ps, by rw [h.1]⟩
  | blocked ps => exact h.elim

theorem unidecodeChars_ascii (c : Char) :
    (unidecodeChars c).all (fun d => decide (d.toNat < 128)) = true := by
  unfold unidecodeChars
  split_ifs with h1 h2 h3 h4 h5 h6
  · simp [h1]
  · decide
  · decide
  · decide
  · decide
  · decide
  · rfl

/-- unidecode output is ASCII-only. -/
theorem asciiOnly_unidecode (s : String) : asciiOnly (unidecode s) = true := by
  show (s.data.flatMap unidecodeChars).all _ = true
  induction s.data with
  | nil => rfl
  | cons c cs ih =>
    rw [List.flatMap_cons, List.all_append]
    simp only [ih, Bool.and_true]
    exact unidecodeChars_ascii c

theorem linesOf_cons_line (s : String) (l : List JsonMsg) :
    linesOf (lineMsg s :: l) = s :: linesOf l := by
  simp [linesOf, lineMsg]

/-- The line payloads the server sends are an initial segment of the
decoded chunk sequence (with the end-of-file empty line at its end),
so the child's output order is preserved on the wire. -/
theorem serverLoop_lines_initial (chunks : List (List Nat)) (code : Int)
    (j : Nat) :
    ∃ t, linesOf (serverLoop chunks code j) ++ t
      = chunks.map decodeReplace ++ [""] := by
  induction j generalizing chunks with
  | zero =>
    rw [serverLoop_zero]
    exact ⟨chunks.map decodeReplace ++ [""], by simp [linesOf, exitMsg]⟩
  | succ j ih =>
    cases chunks with
    | nil => exact ⟨[], rfl⟩
    | cons c rest =>
      obtain ⟨t, ht⟩ := ih rest
      refine ⟨t, ?_⟩
      show linesOf (lineMsg (decodeReplace c) :: serverLoop rest code j) ++ t = _
      rw [linesOf_cons_line, List.cons_append, ht, List.map_cons, List.cons_append]

/-- Unfolding lemma for the drained-pipe case of the server loop. -/
theorem serverLoop_nil_succ (code : Int) (j : Nat) :
    serverLoop [] code (j + 1) = [lineMsg (decodeReplace []), exitMsg code] :=
  rfl

/-- Unfolding lemma for the reading case of the server loop. -/
theorem serverLoop_cons_succ (c : List Nat) (rest : List (List Nat))
    (code : Int) (j : Nat) :
    serverLoop (c :: rest) code (j + 1)
      = lineMsg (decodeReplace c) :: serverLoop rest code j :=
  rfl

/-- The client prints exactly the non-empty line payloads it receives,
in receive order, each transliterated by sanitize_line. -/
theorem client_printed_of_server (chunks : List (List Nat)) (code : Int)
    (j : Nat) :
    printedOf (client_recv_loop (serverLoop chunks code j))
      = ((linesOf (serverLoop chunks code j)).filter
          (fun s => !s.isEmpty)).map sanitize_line := by
  induction j generalizing chunks with
  | zero =>
    rw [serverLoop_zero]
    by_cases h : code = 0 <;>
      simp [client_recv_loop, on_message, exitMsg, exitCheck, linesOf,
        printedOf, h]
  | succ j ih =>
    cases chunks with
    | nil =>
      have h1 : on_message (lineMsg (decodeReplace [])) = OnMessageResult.noAction := rfl
      have h2 : (decodeReplace []).isEmpty = true := rfl
      rw [serverLoop_nil_succ, linesOf_cons_line]
      simp only [client_recv_loop, h1]
      by_cases h : code = 0 <;>
        simp [client_recv_loop, on_message, exitMsg, exitCheck, linesOf,
          printedOf, List.filter_cons, h2, h]
    | cons c rest =>
      rw [serverLoop_cons_succ, linesOf_cons_line]
      by_cases h : (decodeReplace c).isEmpty
      · have hact : on_message (lineMsg (decodeReplace c)) = OnMessageResult.noAction := by
          simp [on_message, lineMsg, exitCheck, h]
        simp only [client_recv_loop, hact]
        rw [ih rest, List.filter_cons]
        simp [h]
      · have hact : on_message (lineMsg (decodeReplace c))
            = OnMessageResult.printedLine (sanitize_line (decodeReplace c)) := by
          simp [on_message, lineMsg, h]
        simp only [client_recv_loop, hact, consPrinted_printedOf]
        rw [ih rest, List.filter_cons]
        simp [h]

theorem socket_handler_length : ∀ msgs : List ReqMsg,
    (∀ m ∈ msgs, (server_on_message m).isSome = true) →
    (socket_handler msgs).length = msgs.length := by
  intro msgs
  induction msgs with
  | nil => intro _; rfl
  | cons m rest ih =>
    intro hall
    obtain ⟨call, hcall⟩ :=
      Option.isSome_iff_exists.mp (hall m (List.mem_cons_self m rest))
    simp only [socket_handler, hcall, List.length_cons]
    exact congrArg (· + 1) (ih fun x hx => hall x (List.mem_cons_of_mem m hx))

/-- C1: for every remote command whose child exits with non-zero status N
the client raises ProcessFailed carrying exactly N, and for every command
whose child exits with status 0 the client returns normally from its
receive loop — under every schedule of the server loop, and the loop is
never left waiting for a message that does not come. -/
theorem c1_exit_status_propagation :
    ∀ (chunks : List (List Nat)) (code : Int) (j : Nat),
      matchesExit (client_recv_loop (serverLoop chunks code j)) code :=
  fun chunks code j => clientServer_matchesExit chunks code j

/-- C2: the claim says the server emits its ExitEvent only after every
chunk of child output has been read and forwarded.  The code violates
this: under the realizable schedule in which the child writes "hi\n" and
exits before the server's first poll (schedule parameter 0), poll
returns the exit code on the first iteration and run_cmd sends the exit
message at once and returns — the pending chunk is never read and no
OutputEvent is sent at all. -/
theorem c2_output_dropped_on_early_exit_poll :
    serverLoop [[104, 105, 10]] 0 0 = [exitMsg 0]
    ∧ linesOf (serverLoop [[104, 105, 10]] 0 0) = [] :=
  ⟨rfl, rfl⟩

/-- C3 counterexample: a request whose working directory does not exist
does not produce any ExitEvent.  Popen raises FileNotFoundError in the
server, run_cmd propagates the exception, and nothing is sent on the
channel — contradicting the claim that launch failure is surfaced as a
normal non-zero ExitEvent. -/
theorem c3_counterexample_missing_cwd_no_exit_event :
    runCmdMessages ["/existing"] (popenCallOf "echo hi" "/does-not-exist" [])
      ⟨[[104, 105, 10]], 0⟩ 3 = none := by
  decide

/-- C3 amended: when the working directory does not exist, Popen raises
and no message at all is sent for the request (the client then sees a
transport failure, not ProcessFailed); when the working directory exists,
the exchange runs and a child that fails — including a shell-level
launch failure such as command-not-found, which the shell reports as its
own non-zero exit status — is surfaced as a non-zero ExitEvent on which
the client raises ProcessFailed carrying that code. -/
theorem c3_launch_failure_amended :
    ∀ (dirs : List String) (call : PopenCall) (child : ChildBehavior) (j : Nat),
      (call.cwd ∉ dirs → runCmdMessages dirs call child j = none)
      ∧ (call.cwd ∈ dirs →
          runCmdMessages dirs call child j
            = some (serverLoop child.chunks child.returncode j)
          ∧ (child.returncode ≠ 0 →
              ∃ printed, client_recv_loop (serverLoop child.chunks child.returncode j)
                = ClientResult.failed child.returncode printed)) := by
  intro dirs call child j
  constructor
  · intro hmem
    simp [runCmdMessages, popen, hmem]
  · intro hmem
    refine ⟨by simp [runCmdMessages, popen, hmem], fun hc => ?_⟩
    exact matchesExit_failed (clientServer_matchesExit child.chunks child.returncode j) hc

/-- Witness for C3 amended at concrete inputs: a missing directory yields
no messages; an existing directory with a child exiting 7 makes the
client raise ProcessFailed 7. -/
theorem c3_launch_failure_witness :
    runCmdMessages ["/ok"] (popenCallOf "echo hi" "/missing" []) ⟨[], 0⟩ 0 = none
    ∧ (runCmdMessages ["/ok"] (popenCallOf "exit 7" "/ok" []) ⟨[[104]], 7⟩ 2
        = some (serverLoop [[104]] 7 2)
      ∧ ∃ printed, client_recv_loop (serverLoop [[104]] 7 2)
          = ClientResult.failed 7 printed) := by
  constructor
  · exact (c3_launch_failure_amended ["/ok"] (popenCallOf "echo hi" "/missing" [])
      ⟨[], 0⟩ 0).1 (by decide)
  · have h := (c3_launch_failure_amended ["/ok"] (popenCallOf "exit 7" "/ok" [])
      ⟨[[104]], 7⟩ 2).2 (by decide)
    exact ⟨h.1, h.2 (by decide)⟩

/-- C4: output ordering is preserved end to end under every schedule:
the line payloads the server sends are an initial segment of the child's
decoded chunks (so chunk A written before chunk B is never sent after
it), and the client prints exactly the non-empty received lines in
receive order, each through sanitize_line. -/
theorem c4_output_order_preserved :
    ∀ (chunks : List (List Nat)) (code : Int) (j : Nat),
      (∃ t, linesOf (serverLoop chunks code j) ++ t
        = chunks.map decodeReplace ++ [""])
      ∧ printedOf (client_recv_loop (serverLoop chunks code j))
          = ((linesOf (serverLoop chunks code j)).filter
              (fun s => !s.isEmpty)).map sanitize_line :=
  fun chunks code j =>
    ⟨serverLoop_lines_initial chunks code j, client_printed_of_server chunks code j⟩

/-- C5: the server's decoding step never raises — replace-mode decoding
succeeds on every byte sequence; whenever strict decoding would raise,
the replace-mode result contains the replacement character instead; and
for every child behavior and schedule the stream still ends with the
ExitEvent and the client's loop terminates. -/
theorem c5_decode_never_raises :
    (∀ bs : List Nat, (utf8Fold true none bs).isSome = true)
    ∧ (∀ bs : List Nat, utf8Fold false none bs = none →
        replacementChar ∈ (decodeReplace bs).data)
    ∧ (∀ (chunks : List (List Nat)) (code : Int) (j : Nat),
        (serverLoop chunks code j).getLast? = some (exitMsg code)
        ∧ isBlockedResult (client_recv_loop (serverLoop chunks code j)) = false) := by
  refine ⟨fun bs => utf8Fold_replace_isSome bs none, fun bs h => ?_,
    fun chunks code j => ⟨serverLoop_getLast chunks code j,
      matchesExit_not_blocked (clientServer_matchesExit chunks code j)⟩⟩
  obtain ⟨l, hl⟩ := Option.isSome_iff_exists.mp (utf8Fold_replace_isSome bs none)
  have hm := utf8Fold_strict_mem bs none l h hl
  simpa [decodeReplace, hl] using hm

/-- Witness for C5 at the invalid byte 0xFF: replace-mode decoding
succeeds and its result contains the replacement character. -/
theorem c5_decode_witness :
    (utf8Fold true none [255]).isSome = true
    ∧ replacementChar ∈ (decodeReplace [255]).data :=
  ⟨c5_decode_never_raises.1 [255], c5_decode_never_raises.2.1 [255] (by decide)⟩

/-- C6: the Popen call the server builds runs the command through a
shell, with stderr merged into stdout, in the request's working
directory, and the child environment is the request's environment —
independent of and wholly replacing the server's own environment. -/
theorem c6_popen_call_shape :
    ∀ (cmd working_dir : String) (env parentEnv1 parentEnv2 : List (String × String)),
      (popenCallOf cmd working_dir env).shell = true
      ∧ (popenCallOf cmd working_dir env).stderrToStdout = true
      ∧ (popenCallOf cmd working_dir env).args = cmd
      ∧ (popenCallOf cmd working_dir env).cwd = working_dir
      ∧ popenChildEnv parentEnv1 (popenCallOf cmd working_dir env) = env
      ∧ popenChildEnv parentEnv1 (popenCallOf cmd working_dir env)
        = popenChildEnv parentEnv2 (popenCallOf cmd working_dir env) :=
  fun _ _ _ _ _ => ⟨rfl, rfl, rfl, rfl, rfl, rfl⟩

/-- C7 counterexample: the handler's async-for loop executes every
message received on the connection; a connection delivering two requests
makes two Popen calls, so a second request on the same connection is
executed — contradicting the claim. -/
theorem c7_counterexample_second_request_executed :
    socket_handler
      [⟨some "first", some "/d", some []⟩, ⟨some "second", some "/d", some []⟩]
      = [popenCallOf "first" "/d" [], popenCallOf "second" "/d" []] :=
  rfl

/-- C7 amended: the server spawns exactly one child per received
well-formed request message, processed sequentially, with no limit of
one request per connection on the server side; the one-request-per-
connection invariant is upheld by the client, which sends exactly one
CommandRequest on a connection. -/
theorem c7_one_child_per_request_amended :
    ∀ (msgs : List ReqMsg) (cmd working_dir : String)
      (env : List (String × String)),
      ((∀ m ∈ msgs, (server_on_message m).isSome = true) →
        (socket_handler msgs).length = msgs.length)
      ∧ (client_sent_messages cmd working_dir env).length = 1 :=
  fun msgs _ _ _ => ⟨socket_handler_length msgs, rfl⟩

/-- Witness for C7 amended: a connection delivering two well-formed
requests makes two Popen calls, while the client sends one request. -/
theorem c7_one_child_witness :
    (socket_handler
      [⟨some "a", some "/d", some []⟩, ⟨some "b", some "/d", some []⟩]).length = 2
    ∧ (client_sent_messages "a" "/d" []).length = 1 := by
  have h := c7_one_child_per_request_amended
    [⟨some "a", some "/d", some []⟩, ⟨some "b", some "/d", some []⟩] "a" "/d" []
  exact ⟨h.1 (by decide), h.2⟩

/-- C8 counterexample: the server accepts a request whose command is the
empty string and launches it — it does not require the command field to
be non-empty, contradicting the claim. -/
theorem c8_counterexample_empty_command_accepted :
    server_on_message ⟨some "", some "/d", some []⟩
      = some (popenCallOf "" "/d" []) :=
  rfl

/-- C8 amended: the server requires only that the cmd, working_dir and
env fields be present (a missing key raises KeyError); it performs no
validation on their contents — in particular the empty command is
accepted — and present values are passed through uninterpreted into the
Popen call. -/
theorem c8_presence_only_validation :
    ∀ m : ReqMsg,
      ((server_on_message m).isSome = true ↔
        (m.cmd.isSome = true ∧ m.working_dir.isSome = true ∧ m.env.isSome = true))
      ∧ ∀ (c wd : String) (e : List (String × String)),
          server_on_message ⟨some c, some wd, some e⟩ = some (popenCallOf c wd e) := by
  intro m
  constructor
  · obtain ⟨mc, mw, me⟩ := m
    cases mc <;> cases mw <;> cases me <;> simp [server_on_message]
  · intro c wd e
    rfl

/-- C9: every OutputEvent carrying a non-empty line is printed by the
client after transliteration through sanitize_line (unidecode); the
transliterated line is ASCII-only, and it can differ from the line the
child produced whenever that line contains non-ASCII characters. -/
theorem c9_lines_transliterated_to_ascii :
    (∀ s : String, s.isEmpty = false →
      on_message (lineMsg s) = OnMessageResult.printedLine (sanitize_line s))
    ∧ (∀ s : String, asciiOnly (sanitize_line s) = true)
    ∧ sanitize_line "é" ≠ "é" := by
  refine ⟨fun s hs => ?_, fun s => asciiOnly_unidecode s, by decide⟩
  simp [on_message, lineMsg, hs]

/-- Witness for C9 at the non-empty line "é": the client prints its
transliteration. -/
theorem c9_transliteration_witness :
    on_message (lineMsg "é") = OnMessageResult.printedLine (sanitize_line "é") :=
  c9_lines_transliterated_to_ascii.1 "é" (by decide)

/-- C10: the client's receive loop can stop (return or raise) only on a
message whose exit field is present; a message with a falsy line field
and no exit field — including the empty end-of-file line the server
sends — prints nothing and the loop continues. -/
theorem c10_loop_ends_only_on_exit_field :
    (∀ m : JsonMsg,
      (on_message m = OnMessageResult.stop ∨
        ∃ rc, on_message m = OnMessageResult.processFailed rc) →
      m.exit.isSome = true)
    ∧ (∀ m : JsonMsg, truthyStr m.line = false → m.exit = none →
        on_message m = OnMessageResult.noAction)
    ∧ on_message (lineMsg (decodeReplace [])) = OnMessageResult.noAction := by
  refine ⟨fun m hm => ?_, fun m h1 h2 => ?_, rfl⟩
  · obtain ⟨ml, me⟩ := m
    cases me with
    | some rc => rfl
    | none =>
      exfalso
      cases ml with
      | none => simp [on_message, exitCheck] at hm
      | some l =>
        by_cases hl : l.isEmpty <;> simp [on_message, exitCheck, hl] at hm
  · obtain ⟨ml, me⟩ := m
    cases h2
    cases ml with
    | none => rfl
    | some l =>
      have hl : l.isEmpty = true := by simpa [truthyStr] using h1
      simp [on_message, exitCheck, hl]

/-- Witness for C10: a pure exit message carries an exit field, and the
empty-line message is ignored by the loop. -/
theorem c10_loop_witness :
    ((⟨none, some 5⟩ : JsonMsg).exit.isSome = true)
    ∧ on_message ⟨some "", none⟩ = OnMessageResult.noAction :=
  ⟨c10_loop_ends_only_on_exit_field.1 ⟨none, some 5⟩ (Or.inr ⟨5, rfl⟩),
   c10_loop_ends_only_on_exit_field.2.1 ⟨some "", none⟩ rfl rfl⟩

end Pyback
